import Mathlib

/-!
Verification of the Ditherum palette-reduction and dithering library.

The development shallowly embeds the Rust sources:
* `src/algorithms/kmean.rs` — generic k-means centroid finder;
* `src/palette.rs` — `PaletteRGB` and its constructors / reduction;
* `src/algorithms/kernel.rs` — the scratch-cell 2x2 kernel traversal;
* `src/algorithms/dithering.rs` — the clamped `Kernel2x2` traversal used by
  the Floyd–Steinberg dithering entry points;
* `src/algorithms/thresholding.rs` — nearest-color thresholding.

Modelling conventions: machine integers are `Nat` (with `% 256` where the
source casts to `u8`); Rust panics (asserts, `unwrap` of `None`, out-of-bounds
indexing) are modelled by `Option`-valued functions returning `none`;
fallible functions returning `Result` are modelled with `Except`.
Floating-point quantities never decide control flow structurally: the
distance, mean and lightness-comparison closures that the source passes
around as `f32`-valued functions are kept as parameters (`ℚ`-valued where an
ordered result is compared, mirroring that `partial_cmp` on the produced
distances always succeeds on non-NaN values).
-/

/-- Error type of `kmean.rs` (`CentroidsFindError`). -/
inductive CentroidsFindError where
  | TooManyIterations : CentroidsFindError
  | TooManyCentroids : (expected : Nat) → (actual : Nat) → CentroidsFindError
  | InputEmpty : CentroidsFindError
deriving DecidableEq, Repr

/-- Constant `ITERATION_MAX_COUNT` from `kmean.rs`. -/
def ITERATION_MAX_COUNT : Nat := 120

/-- Constant `CONVERGE_THRESHOLD` (0.05) from `kmean.rs`. -/
def CONVERGE_THRESHOLD : ℚ := 5 / 100

/-- Constant `CONVERGE_ENOUGH_THRESHOLD` (0.8) from `kmean.rs`. -/
def CONVERGE_ENOUGH_THRESHOLD : ℚ := 8 / 10

/-- `validate_input` from `kmean.rs`: empty input is rejected first, then an
input shorter than the requested centroid count. -/
def validate_input {T : Type} (input : List T) (centroids_count : Nat) :
    Except CentroidsFindError Unit :=
  if input.isEmpty then Except.error CentroidsFindError.InputEmpty
  else if input.length < centroids_count then
    Except.error (CentroidsFindError.TooManyCentroids centroids_count input.length)
  else Except.ok ()

/-- One step of Rust's `Iterator::min_by` reduction (`cmp::min_by`): the
accumulator is kept unless the new element's key is strictly smaller, so the
first minimum encountered wins ties. -/
def minFoldStep {α β : Type} [LinearOrder β] (key : α → β) (acc y : α) : α :=
  if key y < key acc then y else acc

/-- Rust's `Iterator::min_by` keyed by `key`: `none` on an empty iterator,
otherwise the first element attaining the minimal key. -/
def minByKey {α β : Type} [LinearOrder β] (key : α → β) : List α → Option α
  | [] => none
  | x :: xs => some (xs.foldl (minFoldStep key) x)

/-- `find_closest_centroid_idx` from `kmean.rs`: enumerate the centroids,
pair each index with its distance to `item`, and take `min_by` on the
distance.  The source unwraps the `Option` (panicking on an empty centroid
slice); the `none` case models that panic. -/
def find_closest_centroid_idx {T : Type} (item : T) (centroids : List T)
    (d : T → T → ℚ) : Option Nat :=
  (minByKey (fun p => p.2)
    ((centroids.enum).map (fun p => (p.1, d item p.2)))).map (fun p => p.1)

/-- `get_filled_batch_cluster` from `kmean.rs`: start from one empty bucket
per centroid and push every item into the bucket of its closest centroid. -/
def get_filled_batch_cluster {T : Type} (input : List T) (centroids : List T)
    (d : T → T → ℚ) : Option (List (List T)) :=
  input.foldlM
    (fun clusters item =>
      (find_closest_centroid_idx item centroids d).map
        (fun idx => clusters.set idx (clusters.getD idx [] ++ [item])))
    (List.replicate centroids.length [])

/-- `create_clusters_assignment` from `kmean.rs`.  The multithreaded variant
(`get_filled_cluster_multithreaded`) splits `input` into contiguous chunks,
runs `get_filled_batch_cluster` on each and concatenates the per-centroid
buckets in chunk order, which yields exactly the sequential result; the
scheduling itself is not modelled, only the computed partition. -/
def create_clusters_assignment {T : Type} (input : List T) (centroids : List T)
    (d : T → T → ℚ) : Option (List (List T)) :=
  get_filled_batch_cluster input centroids d

/-- `check_converges` from `kmean.rs`: all pairwise distances between the two
centroid lists are strictly below the threshold. -/
def check_converges {T : Type} (last_centroids recent_centroids : List T)
    (distance_threshold : ℚ) (d : T → T → ℚ) : Bool :=
  ((last_centroids.zip recent_centroids).map (fun p => d p.1 p.2)).all
    (fun dist => decide (dist < distance_threshold))

/-- `create_centroids_from_clusters` from `kmean.rs`. -/
def create_centroids_from_clusters {T : Type} (clusters : List (List T))
    (calculate_mean : List T → T) : List T :=
  clusters.map calculate_mean

/-- The `loop` of `find_centroids` in `kmean.rs`, with the iteration counter
made explicit and the number of executed iterations returned alongside the
result.  Each pass assigns clusters, recomputes centroids, breaks on
convergence, and once the counter exceeds `ITERATION_MAX_COUNT` either
accepts a relaxed convergence or fails with `TooManyIterations`. -/
def kmeansLoop {T : Type} (input : List T) (d : T → T → ℚ) (mean : List T → T)
    (centroids : List T) (iterations_count : Nat) :
    Option (Except CentroidsFindError (List T) × Nat) :=
  match create_clusters_assignment input centroids d with
  | none => none
  | some clusters =>
    if check_converges centroids (create_centroids_from_clusters clusters mean)
        CONVERGE_THRESHOLD d then
      some (Except.ok (create_centroids_from_clusters clusters mean), iterations_count + 1)
    else if h : ITERATION_MAX_COUNT < iterations_count + 1 then
      if check_converges centroids (create_centroids_from_clusters clusters mean)
          CONVERGE_ENOUGH_THRESHOLD d then
        some (Except.ok (create_centroids_from_clusters clusters mean), iterations_count + 1)
      else some (Except.error CentroidsFindError.TooManyIterations, iterations_count + 1)
    else kmeansLoop input d mean (create_centroids_from_clusters clusters mean)
      (iterations_count + 1)
termination_by ITERATION_MAX_COUNT + 1 - iterations_count
decreasing_by simp [ITERATION_MAX_COUNT] at *; omega

/-- `find_centroids` from `kmean.rs`.  The random initial centroids drawn by
`choose_multiple` are passed in as `init_centroids` (the claims hold for
every choice). -/
def find_centroids {T : Type} (input : List T) (centroids_count : Nat)
    (d : T → T → ℚ) (mean : List T → T) (init_centroids : List T) :
    Option (Except CentroidsFindError (List T)) :=
  match validate_input input centroids_count with
  | Except.error e => some (Except.error e)
  | Except.ok _ =>
    if input.length = centroids_count then some (Except.ok input)
    else (kmeansLoop input d mean init_centroids 0).map (fun p => p.1)

/-- 8-bit RGB color (`ColorRGB` from `color.rs`); channels are `Nat`s whose
values stay in `0..=255` wherever the embedded code produces them. -/
structure ColorRGB where
  r : Nat
  g : Nat
  b : Nat
deriving DecidableEq, Repr

/-- Truncating cast `as u8`. -/
def u8cast (n : Nat) : Nat := n % 256

/-- Absolute difference of channel values (`u32::abs_diff`). -/
def absDiff (a b : Nat) : Nat := if a ≤ b then b - a else a - b

/-- `ColorRGB::dist_squared_by_rgb`: squared Euclidean distance in RGB space
(`u32` arithmetic in the source; the channel values are at most 255, so the
sum is below `2^32` and no overflow is possible). -/
def ColorRGB.dist_squared_by_rgb (self other : ColorRGB) : Nat :=
  absDiff self.r other.r ^ 2 + absDiff self.g other.g ^ 2 + absDiff self.b other.b ^ 2

/-- `PaletteRGB::find_closest_by_lab` / `find_closest_by_srgb` from
`palette.rs`, with the floating-point perceptual distance (CIEDE2000,
respectively squared sRGB distance) abstracted into `dist`: pair every
palette entry with its distance to `src_color` and take `min_by` on the
distance.  The source unwraps the result, panicking on an empty palette;
`none` models that panic. -/
def find_closest_by (dist : ColorRGB → ColorRGB → ℚ) (palette : List ColorRGB)
    (src_color : ColorRGB) : Option ColorRGB :=
  (minByKey (fun p => p.1)
    (palette.map (fun palette_color => (dist src_color palette_color, palette_color)))).map
    (fun p => p.2)

/-- `PaletteRGB::find_closest_by_rgb`: the same `min_by` argmin with the
concrete integer squared RGB distance. -/
def find_closest_by_rgb (palette : List ColorRGB) (src_color : ColorRGB) :
    Option ColorRGB :=
  (minByKey (fun p => p.1)
    (palette.map (fun palette_color =>
      (ColorRGB.dist_squared_by_rgb src_color palette_color, palette_color)))).map
    (fun p => p.2)

/-- `thresholding_rgb` from `thresholding.rs`: replace every pixel of the
row-major pixel list by its closest palette entry under squared RGB
distance; `none` models the panic on an empty palette. -/
def thresholding_rgb (palette : List ColorRGB) (pixels : List ColorRGB) :
    Option (List ColorRGB) :=
  pixels.mapM (fun pixel => find_closest_by_rgb palette pixel)

/-- `thresholding_lab` from `thresholding.rs`, with the perceptual distance
abstracted as in `find_closest_by`. -/
def thresholding_lab (dist : ColorRGB → ColorRGB → ℚ) (palette : List ColorRGB)
    (pixels : List ColorRGB) : Option (List ColorRGB) :=
  pixels.mapM (fun pixel => find_closest_by dist palette pixel)

/-- `Vec::sort` on colors.  `Ord` for `ColorRGB` compares Lab lightness
(floating point, `partial_cmp` falling back to `Equal`), a total boolean
comparison abstracted into `le`; the stable sort is modelled by a stable
structural sort (`List.insertionSort`), which produces the same ordered
permutation of its input. -/
def sortColors (le : ColorRGB → ColorRGB → Bool) (l : List ColorRGB) : List ColorRGB :=
  l.insertionSort (fun a b => le a b = true)

/-- `From<Vec<T>> for PaletteRGB`: collect the colors into a `HashSet`
(keeping each distinct color exactly once, in an unspecified order that the
subsequent `sort` then fixes; the set contents are modelled by
`List.dedup`), then sort. -/
def paletteFromVec (le : ColorRGB → ColorRGB → Bool) (value : List ColorRGB) :
    List ColorRGB :=
  sortColors le value.dedup

/-- `PaletteRGB::from_rgbu8_image`: insert every pixel of the row-major image
into a set, then sort (`From<HashSet>`). -/
def from_rgbu8_image (le : ColorRGB → ColorRGB → Bool) (img : List (List ColorRGB)) :
    List ColorRGB :=
  paletteFromVec le img.flatten

/-- `PaletteRGB::grayscale`: the `assert!(steps >= 2)` panic is modelled by
`none`; each step maps to the channel value `(255 * step) / (steps - 1)`
cast to `u8`, used for all three channels. -/
def PaletteRGB.grayscale (steps : Nat) : Option (List ColorRGB) :=
  if steps < 2 then none
  else some ((List.range steps).map (fun step =>
    ColorRGB.mk (u8cast ((255 * step) / (steps - 1)))
      (u8cast ((255 * step) / (steps - 1)))
      (u8cast ((255 * step) / (steps - 1)))))

/-- `Vec::dedup`: removes consecutive repeated elements, keeping the first
element of each run. -/
def dedupAdjacent {α : Type} [DecidableEq α] : List α → List α
  | [] => []
  | [a] => [a]
  | a :: b :: rest =>
    if a = b then dedupAdjacent (a :: rest) else a :: dedupAdjacent (b :: rest)
termination_by l => l.length
decreasing_by all_goals simp

/-- `PaletteRGB::combine`: append the other palette, `dedup` (which only
collapses adjacent runs), then sort. -/
def PaletteRGB.combine (le : ColorRGB → ColorRGB → Bool) (self other : List ColorRGB) :
    List ColorRGB :=
  sortColors le (dedupAdjacent (self ++ other))

/-- `PaletteError` from `palette.rs` (the I/O and JSON variants are omitted:
they are unreachable from the embedded operations). -/
inductive PaletteError where
  | NotEnoughColors : (expected : Nat) → (actual : Nat) → PaletteError
  | ConvertionErrot : CentroidsFindError → PaletteError
deriving DecidableEq, Repr

/-- `PaletteRGB::try_reduce`.  The Lab color space is abstract: `toLab`
models the `Vec<palette::Lab>` conversion, `cluster` models
`find_lab_colors_centroids` (k-means over floating-point Lab colors), and
`fromLab` the Lab→8-bit rounding performed inside `PaletteRGB::from`, which
then deduplicates through a `HashSet` and sorts (`paletteFromVec`); the
final explicit `palette.sort()` of the source is applied on top. -/
def try_reduce {L : Type} (toLab : ColorRGB → L) (fromLab : L → ColorRGB)
    (cluster : List L → Nat → Except CentroidsFindError (List L))
    (le : ColorRGB → ColorRGB → Bool) (self : List ColorRGB)
    (target_colors_count : Nat) : Except PaletteError (List ColorRGB) :=
  match compare self.length target_colors_count with
  | Ordering.lt =>
    Except.error (PaletteError.NotEnoughColors target_colors_count self.length)
  | Ordering.eq => Except.ok self
  | Ordering.gt =>
    match cluster (self.map toLab) target_colors_count with
    | Except.error e => Except.error (PaletteError.ConvertionErrot e)
    | Except.ok new_lab_colors =>
      Except.ok (sortColors le (paletteFromVec le (new_lab_colors.map fromLab)))

/-- 2x2 kernel of cell values (`Kernel2x2` in `dithering.rs`; also the
values observed and produced through the four mutable references of
`MutKernel2x2` in `kernel.rs`). -/
structure Kernel2x2 (T : Type) where
  tl : T
  tr : T
  bl : T
  br : T

/-- Read `matrix[y][x]` of a row-major 2D vector; `none` models the panic on
out-of-bounds indexing. -/
def get2d {T : Type} (m : List (List T)) (y x : Nat) : Option T :=
  m[y]?.bind (fun row => row[x]?)

/-- Write `matrix[y][x] = v` of a row-major 2D vector.  Every write performed
by the embedded traversals is bounds-checked against the image size before
this is called. -/
def set2d {T : Type} (m : List (List T)) (y x : Nat) (v : T) : List (List T) :=
  m.set y ((m.getD y []).set x v)

/-- `Kernel2x2::from_matrix` from `dithering.rs`: read the four window cells,
clamping coordinates that run past the last column/row back to the border
(`get_wrapped`). -/
def Kernel2x2.from_matrix {T : Type} (tl_position : Nat × Nat) (image_size : Nat × Nat)
    (src_matrix : List (List T)) : Option (Kernel2x2 T) :=
  match get2d src_matrix
      (if tl_position.2 < image_size.2 then tl_position.2 else image_size.2 - 1)
      (if tl_position.1 < image_size.1 then tl_position.1 else image_size.1 - 1),
    get2d src_matrix
      (if tl_position.2 < image_size.2 then tl_position.2 else image_size.2 - 1)
      (if tl_position.1 + 1 < image_size.1 then tl_position.1 + 1 else image_size.1 - 1),
    get2d src_matrix
      (if tl_position.2 + 1 < image_size.2 then tl_position.2 + 1 else image_size.2 - 1)
      (if tl_position.1 < image_size.1 then tl_position.1 else image_size.1 - 1),
    get2d src_matrix
      (if tl_position.2 + 1 < image_size.2 then tl_position.2 + 1 else image_size.2 - 1)
      (if tl_position.1 + 1 < image_size.1 then tl_position.1 + 1 else image_size.1 - 1) with
  | some tl, some tr, some bl, some br => some (Kernel2x2.mk tl tr bl br)
  | _, _, _, _ => none

/-- `Kernel2x2::apply_to_matrix` from `dithering.rs`: write the four window
slots back, silently omitting any slot whose coordinates fall outside the
image (`set_omitting`). -/
def Kernel2x2.apply_to_matrix {T : Type} (self : Kernel2x2 T) (tl_position : Nat × Nat)
    (image_size : Nat × Nat) (target_matrix : List (List T)) : List (List T) :=
  (fun m => if tl_position.1 + 1 < image_size.1 ∧ tl_position.2 + 1 < image_size.2 then
    set2d m (tl_position.2 + 1) (tl_position.1 + 1) self.br else m)
  ((fun m => if tl_position.1 < image_size.1 ∧ tl_position.2 + 1 < image_size.2 then
    set2d m (tl_position.2 + 1) tl_position.1 self.bl else m)
  ((fun m => if tl_position.1 + 1 < image_size.1 ∧ tl_position.2 < image_size.2 then
    set2d m tl_position.2 (tl_position.1 + 1) self.tr else m)
  ((fun m => if tl_position.1 < image_size.1 ∧ tl_position.2 < image_size.2 then
    set2d m tl_position.2 tl_position.1 self.tl else m)
  target_matrix)))

/-- Row-major traversal order (`for y in 0..height { for x in 0..width }`). -/
def rowMajorPositions (width height : Nat) : List (Nat × Nat) :=
  (List.range height).flatMap (fun y => (List.range width).map (fun x => (x, y)))

/-- The traversal loop of `dithering_floyd_steinberg_lab` /
`dithering_floyd_steinberg_rgb` in `dithering.rs`: for every position in
row-major order, read a `Kernel2x2` with `from_matrix`, transform it with
the per-step kernel function (`apply_2x2_dithering_lab_kernel` /
`apply_2x2_dithering_srgb_kernel`, kept abstract as `f` because its body is
floating-point Lab/sRGB arithmetic; it ignores its position arguments since
`fuzz = 0`), and write the result back with `apply_to_matrix`. -/
def ditherTraverse {T : Type} (f : Kernel2x2 T → Kernel2x2 T) (width height : Nat)
    (m : List (List T)) : Option (List (List T)) :=
  (rowMajorPositions width height).foldlM
    (fun acc pos =>
      (Kernel2x2.from_matrix pos (width, height) acc).map
        (fun kernel => (f kernel).apply_to_matrix pos (width, height) acc))
    m

/-- State of `apply_2x2_kernel_processing` from `kernel.rs`: the matrix plus
the three scratch cells `dummy_tr`, `dummy_bl`, `dummy_br`, created once
(initialised to `T::default()`) and threaded, unreset, through all steps. -/
structure KernelScratch (T : Type) where
  matrix : List (List T)
  dummy_tr : T
  dummy_bl : T
  dummy_br : T

/-- One step of `apply_2x2_kernel_processing` at window position `(x, y)`:
the processing closure observes the four cells (grid cells when in range,
scratch cells otherwise) and its writes land in those same places, so a
write aimed at an out-of-range slot goes to a scratch cell, never to the
grid. -/
def kernelStep {T : Type} (width height : Nat)
    (processing : Kernel2x2 T → Kernel2x2 T) (x y : Nat) (s : KernelScratch T) :
    Option (KernelScratch T) :=
  match get2d s.matrix y x,
      (if x + 1 < width then get2d s.matrix y (x + 1) else some s.dummy_tr),
      (if y + 1 < height then get2d s.matrix (y + 1) x else some s.dummy_bl),
      (if x + 1 < width ∧ y + 1 < height then get2d s.matrix (y + 1) (x + 1)
        else some s.dummy_br) with
  | some tl, some tr, some bl, some br =>
    some (KernelScratch.mk
      ((fun m => if x + 1 < width ∧ y + 1 < height then
          set2d m (y + 1) (x + 1) (processing (Kernel2x2.mk tl tr bl br)).br else m)
        ((fun m => if y + 1 < height then
          set2d m (y + 1) x (processing (Kernel2x2.mk tl tr bl br)).bl else m)
        ((fun m => if x + 1 < width then
          set2d m y (x + 1) (processing (Kernel2x2.mk tl tr bl br)).tr else m)
        (set2d s.matrix y x (processing (Kernel2x2.mk tl tr bl br)).tl))))
      (if x + 1 < width then s.dummy_tr else (processing (Kernel2x2.mk tl tr bl br)).tr)
      (if y + 1 < height then s.dummy_bl else (processing (Kernel2x2.mk tl tr bl br)).bl)
      (if x + 1 < width ∧ y + 1 < height then s.dummy_br
        else (processing (Kernel2x2.mk tl tr bl br)).br))
  | _, _, _, _ => none

/-- `apply_2x2_kernel_processing` from `kernel.rs`: the `assert!(height > 1)`
and `assert!(width > 1)` panics are modelled by `none`; otherwise every
position is visited in row-major order, threading the matrix and the
scratch cells (`dflt` models `T::default()`). -/
def apply_2x2_kernel_processing {T : Type} (matrix : List (List T))
    (processing : Kernel2x2 T → Kernel2x2 T) (dflt : T) : Option (List (List T)) :=
  if matrix.length ≤ 1 then none
  else if (matrix.headD []).length ≤ 1 then none
  else
    ((rowMajorPositions (matrix.headD []).length matrix.length).foldlM
      (fun s pos => kernelStep (matrix.headD []).length matrix.length processing
        pos.1 pos.2 s)
      (KernelScratch.mk matrix dflt dflt dflt)).map (fun s => s.matrix)

/-- The set of window slots that the dithering `apply_to_matrix` at position
`(x, y)` may write: each of the four slots, and only when inside the image
bounds. -/
def ditherWriteSlot (width height x y i j : Nat) : Prop :=
  ((i = x ∧ j = y) ∨ (i = x + 1 ∧ j = y) ∨ (i = x ∧ j = y + 1) ∨
    (i = x + 1 ∧ j = y + 1)) ∧ i < width ∧ j < height

/-- The set of grid cells that a `kernel.rs` traversal step at `(x, y)` may
write: the top-left slot always, the other three slots only when in range
(out-of-range slots divert to the scratch cells instead). -/
def kernelWriteSlot (width height x y i j : Nat) : Prop :=
  (i = x ∧ j = y) ∨ (i = x + 1 ∧ j = y ∧ x + 1 < width) ∨
    (i = x ∧ j = y + 1 ∧ y + 1 < height) ∨
    (i = x + 1 ∧ j = y + 1 ∧ x + 1 < width ∧ y + 1 < height)

/-! ### Helper lemmas about the argmin fold -/

theorem minByKey_isSome {α β : Type} [LinearOrder β] (key : α → β) (l : List α)
    (h : l ≠ []) : (minByKey key l).isSome := by
  cases l with
  | nil => exact absurd rfl h
  | cons x xs => simp [minByKey]

theorem minFold_decomp {α β : Type} [LinearOrder β] (key : α → β) :
    ∀ (xs : List α) (x : α),
      (xs.foldl (minFoldStep key) x = x ∧ ∀ b ∈ xs, key x ≤ key b) ∨
      (∃ l1 l2, xs = l1 ++ xs.foldl (minFoldStep key) x :: l2 ∧
        key (xs.foldl (minFoldStep key) x) < key x ∧
        (∀ b ∈ l1, key (xs.foldl (minFoldStep key) x) < key b) ∧
        (∀ b ∈ l2, key (xs.foldl (minFoldStep key) x) ≤ key b)) := by
  intro xs
  induction xs with
  | nil =>
    intro x
    left
    exact ⟨rfl, by simp⟩
  | cons y ys ih =>
    intro x
    by_cases h : key y < key x
    · have hstep : (y :: ys).foldl (minFoldStep key) x = ys.foldl (minFoldStep key) y := by
        simp [List.foldl_cons, minFoldStep, h]
      rw [hstep]
      rcases ih y with ⟨heq, hmin⟩ | ⟨l1, l2, hsplit, hlt, hl1, hl2⟩
      · right
        refine ⟨[], ys, by simp [heq], by rw [heq]; exact h, by simp, ?_⟩
        intro b hb
        rw [heq]
        exact hmin b hb
      · right
        refine ⟨y :: l1, l2, by rw [List.cons_append, ← hsplit], lt_trans hlt h, ?_, hl2⟩
        intro b hb
        rcases List.mem_cons.mp hb with hb | hb
        · rw [hb]
          exact hlt
        · exact hl1 b hb
    · have hstep : (y :: ys).foldl (minFoldStep key) x = ys.foldl (minFoldStep key) x := by
        simp [List.foldl_cons, minFoldStep, h]
      rw [hstep]
      rcases ih x with ⟨heq, hmin⟩ | ⟨l1, l2, hsplit, hlt, hl1, hl2⟩
      · left
        refine ⟨heq, ?_⟩
        intro b hb
        rcases List.mem_cons.mp hb with hb | hb
        · rw [hb]
          exact le_of_not_lt h
        · exact hmin b hb
      · right
        refine ⟨y :: l1, l2, by rw [List.cons_append, ← hsplit], hlt, ?_, hl2⟩
        intro b hb
        rcases List.mem_cons.mp hb with hb | hb
        · rw [hb]
          exact lt_of_lt_of_le hlt (le_of_not_lt h)
        · exact hl1 b hb

theorem minByKey_decomp {α β : Type} [LinearOrder β] (key : α → β) (l : List α) (r : α)
    (h : minByKey key l = some r) :
    ∃ l1 l2, l = l1 ++ r :: l2 ∧ (∀ b ∈ l1, key r < key b) ∧
      (∀ b ∈ l2, key r ≤ key b) := by
  cases l with
  | nil => simp [minByKey] at h
  | cons x xs =>
    simp only [minByKey, Option.some.injEq] at h
    rcases minFold_decomp key xs x with ⟨heq, hmin⟩ | ⟨l1, l2, hsplit, hlt, hl1, hl2⟩
    · refine ⟨[], xs, ?_, by simp, ?_⟩
      · rw [← h, heq]
        simp
      · intro b hb
        rw [← h, heq]
        exact hmin b hb
    · refine ⟨x :: l1, l2, ?_, ?_, ?_⟩
      · rw [← h, List.cons_append, ← hsplit]
      · intro b hb
        rcases List.mem_cons.mp hb with hb | hb
        · rw [hb, ← h]
          exact hlt
        · rw [← h]
          exact hl1 b hb
      · intro b hb
        rw [← h]
        exact hl2 b hb

theorem minByKey_first_index {α β : Type} [LinearOrder β] (key : α → β) (l : List α)
    (r : α) (h : minByKey key l = some r) :
    ∃ i, i < l.length ∧ l[i]? = some r ∧
      (∀ (j : Nat) (b : α), l[j]? = some b → key r ≤ key b) ∧
      (∀ (j : Nat) (b : α), j < i → l[j]? = some b → key r < key b) := by
  obtain ⟨l1, l2, hsplit, hl1, hl2⟩ := minByKey_decomp key l r h
  refine ⟨l1.length, ?_, ?_, ?_, ?_⟩
  · rw [hsplit]
    simp
  · rw [hsplit, List.getElem?_append_right (le_refl l1.length)]
    simp
  · intro j b hj
    have hb : b ∈ l := List.getElem?_mem hj
    rw [hsplit] at hb
    rcases List.mem_append.mp hb with hb | hb
    · exact le_of_lt (hl1 b hb)
    · rcases List.mem_cons.mp hb with hb | hb
      · rw [hb]
      · exact hl2 b hb
  · intro j b hj hget
    rw [hsplit, List.getElem?_append] at hget
    rw [if_pos hj] at hget
    exact hl1 b (List.getElem?_mem hget)

theorem enum_dist_getElem {T : Type} (item : T) (centroids : List T) (d : T → T → ℚ)
    (n : Nat) (hn : n < centroids.length) :
    ((centroids.enum).map (fun p => (p.1, d item p.2)))[n]? =
      some (n, d item (centroids.getD n item)) := by
  rw [List.getElem?_map, List.getElem?_enum, List.getElem?_eq_getElem hn]
  simp [List.getD_eq_getElem?_getD, List.getElem?_eq_getElem hn]

theorem find_closest_centroid_idx_spec {T : Type} (item : T) (centroids : List T)
    (d : T → T → ℚ) (hc : centroids ≠ []) :
    ∃ i, find_closest_centroid_idx item centroids d = some i ∧ i < centroids.length ∧
      (∀ j, j < centroids.length →
        d item (centroids.getD i item) ≤ d item (centroids.getD j item)) ∧
      (∀ j, j < i → d item (centroids.getD i item) < d item (centroids.getD j item)) := by
  have hlen : ((centroids.enum).map (fun p => (p.1, d item p.2))).length
      = centroids.length := by
    simp
  have hne : ((centroids.enum).map (fun p => (p.1, d item p.2))) ≠ [] := by
    intro hx
    apply hc
    have hzero := congrArg List.length hx
    rw [hlen] at hzero
    exact List.length_eq_zero.mp hzero
  obtain ⟨r, hr⟩ := Option.isSome_iff_exists.mp
    (minByKey_isSome (fun p : Nat × ℚ => p.2) _ hne)
  obtain ⟨i, hi, hget, hmin, hfirst⟩ := minByKey_first_index _ _ _ hr
  rw [hlen] at hi
  have hri : r = (i, d item (centroids.getD i item)) := by
    have hth := enum_dist_getElem item centroids d i hi
    exact Option.some.inj (hget.symm.trans hth)
  refine ⟨i, ?_, hi, ?_, ?_⟩
  · unfold find_closest_centroid_idx
    rw [hr, hri]
    rfl
  · intro j hj
    have hth := enum_dist_getElem item centroids d j hj
    have := hmin j _ hth
    rw [hri] at this
    exact this
  · intro j hj
    have hth := enum_dist_getElem item centroids d j (lt_trans hj hi)
    have := hfirst j _ hj hth
    rw [hri] at this
    exact this

theorem palette_dist_getElem (dist : ColorRGB → ColorRGB → ℚ) (palette : List ColorRGB)
    (src_color : ColorRGB) (n : Nat) (hn : n < palette.length) :
    (palette.map (fun palette_color => (dist src_color palette_color, palette_color)))[n]? =
      some (dist src_color (palette.getD n src_color), palette.getD n src_color) := by
  rw [List.getElem?_map, List.getElem?_eq_getElem hn]
  simp [List.getD_eq_getElem?_getD, List.getElem?_eq_getElem hn]

theorem find_closest_by_spec (dist : ColorRGB → ColorRGB → ℚ) (palette : List ColorRGB)
    (src_color : ColorRGB) (hp : palette ≠ []) :
    ∃ i, i < palette.length ∧
      find_closest_by dist palette src_color = some (palette.getD i src_color) ∧
      (∀ j, j < palette.length →
        dist src_color (palette.getD i src_color) ≤ dist src_color (palette.getD j src_color)) ∧
      (∀ j, j < i →
        dist src_color (palette.getD i src_color) < dist src_color (palette.getD j src_color)) := by
  have hlen : (palette.map (fun palette_color =>
      (dist src_color palette_color, palette_color))).length = palette.length := by
    simp
  have hne : (palette.map (fun palette_color =>
      (dist src_color palette_color, palette_color))) ≠ [] := by
    intro hx
    apply hp
    have hzero := congrArg List.length hx
    rw [hlen] at hzero
    exact List.length_eq_zero.mp hzero
  obtain ⟨r, hr⟩ := Option.isSome_iff_exists.mp
    (minByKey_isSome (fun p : ℚ × ColorRGB => p.1) _ hne)
  obtain ⟨i, hi, hget, hmin, hfirst⟩ := minByKey_first_index _ _ _ hr
  rw [hlen] at hi
  have hri : r = (dist src_color (palette.getD i src_color), palette.getD i src_color) := by
    have hth := palette_dist_getElem dist palette src_color i hi
    exact Option.some.inj (hget.symm.trans hth)
  refine ⟨i, hi, ?_, ?_, ?_⟩
  · unfold find_closest_by
    rw [hr, hri]
    rfl
  · intro j hj
    have hth := palette_dist_getElem dist palette src_color j hj
    have := hmin j _ hth
    rw [hri] at this
    exact this
  · intro j hj
    have hth := palette_dist_getElem dist palette src_color j (lt_trans hj hi)
    have := hfirst j _ hj hth
    rw [hri] at this
    exact this

/-! ### Helper lemmas about cluster assignment and the k-means loop -/

theorem foldlM_option_inv {α β : Type} (f : β → α → Option β) (P : β → Prop)
    (hf : ∀ b a, P b → ∃ b2, f b a = some b2 ∧ P b2) :
    ∀ (l : List α) (acc : β), P acc → ∃ res, List.foldlM f acc l = some res ∧ P res := by
  intro l
  induction l with
  | nil =>
    intro acc h
    exact ⟨acc, rfl, h⟩
  | cons a l ih =>
    intro acc h
    obtain ⟨b2, hb2, hP2⟩ := hf acc a h
    obtain ⟨res, hres, hPr⟩ := ih b2 hP2
    refine ⟨res, ?_, hPr⟩
    rw [List.foldlM_cons, hb2]
    simpa using hres

theorem create_clusters_spec {T : Type} (input centroids : List T) (d : T → T → ℚ)
    (hc : centroids ≠ []) :
    ∃ cl, create_clusters_assignment input centroids d = some cl ∧
      cl.length = centroids.length := by
  have hstep : ∀ (b : List (List T)) (a : T), b.length = centroids.length →
      ∃ b2, ((find_closest_centroid_idx a centroids d).map
        (fun idx => b.set idx (b.getD idx [] ++ [a]))) = some b2 ∧
        b2.length = centroids.length := by
    intro b a hP
    obtain ⟨i, hi, _, _, _⟩ := find_closest_centroid_idx_spec a centroids d hc
    refine ⟨b.set i (b.getD i [] ++ [a]), ?_, ?_⟩
    · rw [hi]
      rfl
    · rw [List.length_set]
      exact hP
  exact foldlM_option_inv _ _ hstep input _ (by simp)

theorem kmeansLoop_spec {T : Type} (input : List T) (d : T → T → ℚ) (mean : List T → T) :
    ∀ (centroids : List T) (ic : Nat), centroids ≠ [] →
      ∃ r n, kmeansLoop input d mean centroids ic = some (r, n) ∧
        n ≤ max (ic + 1) (ITERATION_MAX_COUNT + 1) ∧
        ∀ e, r = Except.error e → e = CentroidsFindError.TooManyIterations := by
  intro centroids ic
  induction centroids, ic using kmeansLoop.induct input d mean with
  | case1 centroids ic hnone =>
    intro hc
    obtain ⟨cl, hcl, _⟩ := create_clusters_spec input centroids d hc
    rw [hnone] at hcl
    exact absurd hcl (by simp)
  | case2 centroids ic clusters hcl hconv =>
    intro hc
    refine ⟨Except.ok (create_centroids_from_clusters clusters mean), ic + 1, ?_, by omega, ?_⟩
    · rw [kmeansLoop, hcl]
      simp [hconv]
    · intro e he
      exact absurd he (by simp)
  | case3 centroids ic clusters hcl hconv hcap hrelax =>
    intro hc
    refine ⟨Except.ok (create_centroids_from_clusters clusters mean), ic + 1, ?_, by omega, ?_⟩
    · rw [kmeansLoop, hcl]
      simp [hconv, hcap, hrelax]
    · intro e he
      exact absurd he (by simp)
  | case4 centroids ic clusters hcl hconv hcap hrelax =>
    intro hc
    refine ⟨Except.error CentroidsFindError.TooManyIterations, ic + 1, ?_, by omega, ?_⟩
    · rw [kmeansLoop, hcl]
      simp [hconv, hcap, hrelax]
    · intro e he
      injection he with he
      exact he.symm
  | case5 centroids ic clusters hcl hconv hcap ih =>
    intro hc
    have hnext : create_centroids_from_clusters clusters mean ≠ [] := by
      obtain ⟨cl, hcl2, hlen⟩ := create_clusters_spec input centroids d hc
      rw [hcl] at hcl2
      have hcl3 : clusters = cl := by injection hcl2
      intro hx
      apply hc
      have hzero := congrArg List.length hx
      unfold create_centroids_from_clusters at hzero
      rw [List.length_map, hcl3, hlen] at hzero
      exact List.length_eq_zero.mp hzero
    obtain ⟨r, n, hloop, hbound, herr⟩ := ih hnext
    refine ⟨r, n, ?_, ?_, herr⟩
    · rw [kmeansLoop, hcl]
      simp only [hconv, Bool.false_eq_true, if_false, dif_neg hcap]
      exact hloop
    · simp only [ITERATION_MAX_COUNT] at hcap hbound ⊢
      omega

theorem kmeansLoop_cap {T : Type} (input : List T) (d : T → T → ℚ) (mean : List T → T)
    (centroids : List T) (ic : Nat) (hcap : ITERATION_MAX_COUNT ≤ ic) :
    kmeansLoop input d mean centroids ic =
      (create_clusters_assignment input centroids d).map (fun clusters =>
        if check_converges centroids (create_centroids_from_clusters clusters mean)
            CONVERGE_THRESHOLD d then
          (Except.ok (create_centroids_from_clusters clusters mean), ic + 1)
        else if check_converges centroids (create_centroids_from_clusters clusters mean)
            CONVERGE_ENOUGH_THRESHOLD d then
          (Except.ok (create_centroids_from_clusters clusters mean), ic + 1)
        else (Except.error CentroidsFindError.TooManyIterations, ic + 1)) := by
  rw [kmeansLoop]
  cases hm : create_clusters_assignment input centroids d with
  | none => rfl
  | some clusters =>
    have hlt : ITERATION_MAX_COUNT < ic + 1 := by omega
    by_cases h1 : check_converges centroids (create_centroids_from_clusters clusters mean)
        CONVERGE_THRESHOLD d
    · simp [h1]
    · by_cases h2 : check_converges centroids (create_centroids_from_clusters clusters mean)
          CONVERGE_ENOUGH_THRESHOLD d
      · simp [h1, h2, dif_pos hlt]
      · simp [h1, h2, dif_pos hlt]

theorem kmeansLoop_error {T : Type} (input : List T) (d : T → T → ℚ) (mean : List T → T) :
    ∀ (centroids : List T) (ic : Nat) (r : Except CentroidsFindError (List T)) (n : Nat)
      (e : CentroidsFindError),
      kmeansLoop input d mean centroids ic = some (r, n) → r = Except.error e →
      e = CentroidsFindError.TooManyIterations := by
  intro centroids ic
  induction centroids, ic using kmeansLoop.induct input d mean with
  | case1 c ic hnone =>
    intro r n e hl he
    rw [kmeansLoop, hnone] at hl
    exact absurd hl (by simp)
  | case2 c ic clusters hcl hconv =>
    intro r n e hl he
    rw [kmeansLoop, hcl] at hl
    simp only [hconv, if_true] at hl
    rw [← (Prod.mk.injEq _ _ _ _).mp (Option.some.inj hl) |>.1] at he
    exact absurd he (by simp)
  | case3 c ic clusters hcl hconv hcap hrelax =>
    intro r n e hl he
    rw [kmeansLoop, hcl] at hl
    simp only [hconv, Bool.false_eq_true, if_false, dif_pos hcap, hrelax, if_true] at hl
    rw [← (Prod.mk.injEq _ _ _ _).mp (Option.some.inj hl) |>.1] at he
    exact absurd he (by simp)
  | case4 c ic clusters hcl hconv hcap hrelax =>
    intro r n e hl he
    rw [kmeansLoop, hcl] at hl
    simp only [hconv, hrelax, Bool.false_eq_true, if_false, dif_pos hcap] at hl
    rw [← (Prod.mk.injEq _ _ _ _).mp (Option.some.inj hl) |>.1] at he
    injection he with he
    exact he.symm
  | case5 c ic clusters hcl hconv hcap ih =>
    intro r n e hl he
    rw [kmeansLoop, hcl] at hl
    simp only [hconv, Bool.false_eq_true, if_false, dif_neg hcap] at hl
    exact ih r n e hl he

/-! ### Claim C1 -/

/-- C1: `find_centroids` always terminates.  For every non-empty input with
`centroids_count` strictly between 1 and the input length (so the non-trivial
k-means loop actually runs, on a random initial draw of `centroids_count`
centroids), the loop yields a result after at most `ITERATION_MAX_COUNT + 1`
iterations, `find_centroids` returns that result, and the only possible error
is `TooManyIterations`.  Moreover, from any state whose iteration count has
reached the hard cap, the loop performs exactly one more pass: it re-checks
convergence against the relaxed `CONVERGE_ENOUGH_THRESHOLD` and, if that also
fails, returns `Err(TooManyIterations)` instead of looping further. -/
theorem find_centroids_iteration_cap {T : Type} (input : List T) (centroids_count : Nat)
    (d : T → T → ℚ) (mean : List T → T) (init_centroids : List T)
    (hne : input ≠ []) (hlo : 1 < centroids_count) (hhi : centroids_count < input.length)
    (hinit : init_centroids.length = centroids_count) :
    (∃ r n, kmeansLoop input d mean init_centroids 0 = some (r, n) ∧
      n ≤ ITERATION_MAX_COUNT + 1 ∧
      find_centroids input centroids_count d mean init_centroids = some r ∧
      ∀ e, r = Except.error e → e = CentroidsFindError.TooManyIterations) ∧
    (∀ (c : List T) (ic : Nat), ITERATION_MAX_COUNT ≤ ic →
      kmeansLoop input d mean c ic =
        (create_clusters_assignment input c d).map (fun clusters =>
          if check_converges c (create_centroids_from_clusters clusters mean)
              CONVERGE_THRESHOLD d then
            (Except.ok (create_centroids_from_clusters clusters mean), ic + 1)
          else if check_converges c (create_centroids_from_clusters clusters mean)
              CONVERGE_ENOUGH_THRESHOLD d then
            (Except.ok (create_centroids_from_clusters clusters mean), ic + 1)
          else (Except.error CentroidsFindError.TooManyIterations, ic + 1))) := by
  constructor
  · have hinitne : init_centroids ≠ [] := by
      intro hx
      rw [hx] at hinit
      simp at hinit
      omega
    obtain ⟨r, n, hloop, hbound, herr⟩ := kmeansLoop_spec input d mean init_centroids 0 hinitne
    refine ⟨r, n, hloop, ?_, ?_, herr⟩
    · simp only [ITERATION_MAX_COUNT] at hbound ⊢
      omega
    · unfold find_centroids validate_input
      rw [if_neg (by simpa [List.isEmpty_iff] using hne), if_neg (by omega)]
      simp only []
      rw [if_neg (by omega), hloop]
      rfl
  · intro c ic hcap
    exact kmeansLoop_cap input d mean c ic hcap

/-- Witness for C1: the theorem applied at a concrete three-point rational
input with two centroids. -/
theorem find_centroids_iteration_cap_witness :
    ([(0 : ℚ), 1, 2] ≠ []) ∧ (1 < 2) ∧ (2 < [(0 : ℚ), 1, 2].length) ∧
    ([(0 : ℚ), 1].length = 2) ∧
    ((∃ r n, kmeansLoop [(0 : ℚ), 1, 2] (fun _ _ => 0) (fun _ => 0) [(0 : ℚ), 1] 0
        = some (r, n) ∧
      n ≤ ITERATION_MAX_COUNT + 1 ∧
      find_centroids [(0 : ℚ), 1, 2] 2 (fun _ _ => 0) (fun _ => 0) [(0 : ℚ), 1] = some r ∧
      ∀ e, r = Except.error e → e = CentroidsFindError.TooManyIterations) ∧
    (∀ (c : List ℚ) (ic : Nat), ITERATION_MAX_COUNT ≤ ic →
      kmeansLoop [(0 : ℚ), 1, 2] (fun _ _ => 0) (fun _ => 0) c ic =
        (create_clusters_assignment [(0 : ℚ), 1, 2] c (fun _ _ => 0)).map (fun clusters =>
          if check_converges c (create_centroids_from_clusters clusters (fun _ => 0))
              CONVERGE_THRESHOLD (fun _ _ => 0) then
            (Except.ok (create_centroids_from_clusters clusters (fun _ => 0)), ic + 1)
          else if check_converges c (create_centroids_from_clusters clusters (fun _ => 0))
              CONVERGE_ENOUGH_THRESHOLD (fun _ _ => 0) then
            (Except.ok (create_centroids_from_clusters clusters (fun _ => 0)), ic + 1)
          else (Except.error CentroidsFindError.TooManyIterations, ic + 1)))) :=
  ⟨by decide, by decide, by decide, by decide,
    find_centroids_iteration_cap [(0 : ℚ), 1, 2] 2 (fun _ _ => 0) (fun _ => 0) [(0 : ℚ), 1]
      (by decide) (by decide) (by decide) (by decide)⟩

/-! ### Claim C2 -/

/-- C2: argmin tie-breaking is first-encountered.  For every item and
non-empty centroid list, `find_closest_centroid_idx` returns an index `i`
whose distance is minimal and such that every earlier index has strictly
greater distance (so among ties the smallest index wins); likewise the
nearest-color search (`find_closest_by_lab` / `find_closest_by_srgb`,
embedded as `find_closest_by`) returns the palette entry at the first index
attaining the minimal distance. -/
theorem tie_break_first_encountered {T : Type} (item : T) (centroids : List T)
    (d : T → T → ℚ) (hc : centroids ≠ []) (dist : ColorRGB → ColorRGB → ℚ)
    (palette : List ColorRGB) (src_color : ColorRGB) (hp : palette ≠ []) :
    (∃ i, find_closest_centroid_idx item centroids d = some i ∧ i < centroids.length ∧
      (∀ j, j < centroids.length →
        d item (centroids.getD i item) ≤ d item (centroids.getD j item)) ∧
      (∀ j, j < i → d item (centroids.getD i item) < d item (centroids.getD j item))) ∧
    (∃ i, i < palette.length ∧
      find_closest_by dist palette src_color = some (palette.getD i src_color) ∧
      (∀ j, j < palette.length →
        dist src_color (palette.getD i src_color)
          ≤ dist src_color (palette.getD j src_color)) ∧
      (∀ j, j < i →
        dist src_color (palette.getD i src_color)
          < dist src_color (palette.getD j src_color))) :=
  ⟨find_closest_centroid_idx_spec item centroids d hc,
    find_closest_by_spec dist palette src_color hp⟩

/-- Witness for C2: a concrete tie (two centroids at distance 1, the first
of them at index 1) and a concrete one-color palette. -/
theorem tie_break_first_encountered_witness :
    ([(3 : ℚ), 1, 1] ≠ []) ∧ ([ColorRGB.mk 0 0 0] ≠ []) ∧
    ((∃ i, find_closest_centroid_idx (0 : ℚ) [(3 : ℚ), 1, 1] (fun a b => |a - b|)
        = some i ∧ i < [(3 : ℚ), 1, 1].length ∧
      (∀ j, j < [(3 : ℚ), 1, 1].length →
        |(0 : ℚ) - [(3 : ℚ), 1, 1].getD i 0| ≤ |(0 : ℚ) - [(3 : ℚ), 1, 1].getD j 0|) ∧
      (∀ j, j < i →
        |(0 : ℚ) - [(3 : ℚ), 1, 1].getD i 0| < |(0 : ℚ) - [(3 : ℚ), 1, 1].getD j 0|)) ∧
    (∃ i, i < [ColorRGB.mk 0 0 0].length ∧
      find_closest_by (fun _ _ => 0) [ColorRGB.mk 0 0 0] (ColorRGB.mk 7 7 7)
        = some ([ColorRGB.mk 0 0 0].getD i (ColorRGB.mk 7 7 7)) ∧
      (∀ j, j < [ColorRGB.mk 0 0 0].length → (0 : ℚ) ≤ 0) ∧
      (∀ j, j < i → (0 : ℚ) < 0))) :=
  ⟨by decide, by decide,
    tie_break_first_encountered (0 : ℚ) [(3 : ℚ), 1, 1] (fun a b => |a - b|) (by decide)
      (fun _ _ => 0) [ColorRGB.mk 0 0 0] (ColorRGB.mk 7 7 7) (by decide)⟩

/-! ### Claim C4 -/

/-- C4: identity law at the trivial cluster count.  For every non-empty item
sequence, `find_centroids` with `centroids_count` equal to the item count
returns `Ok` of exactly the input sequence; correspondingly, for every
palette `p`, `try_reduce p p.length` returns `Ok p` unchanged (for every
clustering oracle and lightness order, which are not even consulted). -/
theorem reduce_identity_at_full_count {T L : Type} (input : List T) (d : T → T → ℚ)
    (mean : List T → T) (init_centroids : List T) (hne : input ≠ [])
    (toLab : ColorRGB → L) (fromLab : L → ColorRGB)
    (cluster : List L → Nat → Except CentroidsFindError (List L))
    (le : ColorRGB → ColorRGB → Bool) (p : List ColorRGB) :
    find_centroids input input.length d mean init_centroids = some (Except.ok input) ∧
    try_reduce toLab fromLab cluster le p p.length = Except.ok p := by
  constructor
  · unfold find_centroids validate_input
    rw [if_neg (by simpa [List.isEmpty_iff] using hne), if_neg (by omega)]
    simp
  · unfold try_reduce
    rw [Nat.compare_eq_eq.mpr rfl]

/-- Witness for C4 at a concrete two-point input and a concrete palette. -/
theorem reduce_identity_at_full_count_witness :
    ([(5 : ℚ), 7] ≠ []) ∧
    (find_centroids [(5 : ℚ), 7] [(5 : ℚ), 7].length (fun _ _ => 0) (fun _ => 0) []
      = some (Except.ok [(5 : ℚ), 7]) ∧
    try_reduce (fun c => c.r) (fun _ => ColorRGB.mk 0 0 0) (fun _ _ => Except.ok [])
      (fun _ _ => true) [ColorRGB.mk 0 0 0, ColorRGB.mk 255 255 255]
      [ColorRGB.mk 0 0 0, ColorRGB.mk 255 255 255].length
      = Except.ok [ColorRGB.mk 0 0 0, ColorRGB.mk 255 255 255]) :=
  ⟨by decide,
    reduce_identity_at_full_count [(5 : ℚ), 7] (fun _ _ => 0) (fun _ => 0) [] (by decide)
      (fun c => c.r) (fun _ => ColorRGB.mk 0 0 0) (fun _ _ => Except.ok [])
      (fun _ _ => true) [ColorRGB.mk 0 0 0, ColorRGB.mk 255 255 255]⟩

/-! ### Claim C5 -/

/-- C5: `find_centroids` fails with `InputEmpty` exactly when the input slice
is empty (regardless of `centroids_count`, so the empty check takes
precedence), and fails with `TooManyCentroids{expected, actual}` exactly when
the input is non-empty, `centroids_count` exceeds the input length,
`expected` is the requested count and `actual` the input length. -/
theorem find_centroids_error_characterization {T : Type} (input : List T)
    (centroids_count : Nat) (d : T → T → ℚ) (mean : List T → T)
    (init_centroids : List T) :
    (find_centroids input centroids_count d mean init_centroids
        = some (Except.error CentroidsFindError.InputEmpty) ↔ input = []) ∧
    (∀ expected actual,
      find_centroids input centroids_count d mean init_centroids
          = some (Except.error (CentroidsFindError.TooManyCentroids expected actual)) ↔
        (input ≠ [] ∧ input.length < centroids_count ∧
          expected = centroids_count ∧ actual = input.length)) := by
  by_cases hemp : input = []
  · subst hemp
    constructor
    · simp [find_centroids, validate_input]
    · intro expected actual
      simp [find_centroids, validate_input]
  · have hemp2 : input.isEmpty = false := by
      simpa [List.isEmpty_iff] using hemp
    by_cases hcnt : input.length < centroids_count
    · constructor
      · rw [find_centroids, validate_input]
        simp [hemp2, hcnt, hemp]
      · intro expected actual
        rw [find_centroids, validate_input]
        simp [hemp2, hcnt, hemp]
        constructor
        · intro h
          exact ⟨h.1.symm, h.2.symm⟩
        · intro h
          exact ⟨h.1.symm, h.2.symm⟩
    · have hval : validate_input input centroids_count = Except.ok () := by
        unfold validate_input
        rw [if_neg (by simp [hemp2]), if_neg hcnt]
      constructor
      · rw [find_centroids, hval]
        simp only []
        by_cases heq : input.length = centroids_count
        · rw [if_pos heq]
          simp [hemp]
        · rw [if_neg heq]
          constructor
          · intro h
            cases hl : kmeansLoop input d mean init_centroids 0 with
            | none => rw [hl] at h; exact absurd h (by simp)
            | some out =>
              rw [hl] at h
              simp only [Option.map_some'] at h
              have hr : out.1 = Except.error CentroidsFindError.InputEmpty :=
                Option.some.inj h
              have := kmeansLoop_error input d mean init_centroids 0 out.1 out.2
                CentroidsFindError.InputEmpty (by rw [hl]) hr
              exact absurd this (by simp)
          · intro h
            exact absurd h hemp
      · intro expected actual
        rw [find_centroids, hval]
        simp only []
        by_cases heq : input.length = centroids_count
        · rw [if_pos heq]
          constructor
          · intro h
            exact absurd (Option.some.inj h) (by simp)
          · intro h
            omega
        · rw [if_neg heq]
          constructor
          · intro h
            cases hl : kmeansLoop input d mean init_centroids 0 with
            | none => rw [hl] at h; exact absurd h (by simp)
            | some out =>
              rw [hl] at h
              simp only [Option.map_some'] at h
              have hr : out.1 = Except.error
                  (CentroidsFindError.TooManyCentroids expected actual) :=
                Option.some.inj h
              have := kmeansLoop_error input d mean init_centroids 0 out.1 out.2
                (CentroidsFindError.TooManyCentroids expected actual) (by rw [hl]) hr
              exact absurd this (by simp)
          · intro h
            omega

/-- Witness for C5: both characterizations applied at concrete inputs (the
empty input, and a one-element input with two requested centroids). -/
theorem find_centroids_error_characterization_witness :
    find_centroids ([] : List ℚ) 3 (fun _ _ => 0) (fun _ => 0) []
      = some (Except.error CentroidsFindError.InputEmpty) ∧
    find_centroids [(4 : ℚ)] 2 (fun _ _ => 0) (fun _ => 0) []
      = some (Except.error (CentroidsFindError.TooManyCentroids 2 1)) :=
  ⟨(find_centroids_error_characterization ([] : List ℚ) 3 (fun _ _ => 0)
      (fun _ => 0) []).1.mpr rfl,
    ((find_centroids_error_characterization [(4 : ℚ)] 2 (fun _ _ => 0)
      (fun _ => 0) []).2 2 1).mpr ⟨by decide, by decide, rfl, rfl⟩⟩

/-! ### Claim C8 -/

/-- C8: for every palette and target count exceeding the palette size,
`try_reduce` fails with `NotEnoughColors{expected := target, actual := size}`.
The statement is universally quantified over the clustering oracle and the
Lab conversions, so the error is determined by the length comparison alone,
before any clustering is invoked. -/
theorem try_reduce_not_enough_colors {L : Type} (toLab : ColorRGB → L)
    (fromLab : L → ColorRGB)
    (cluster : List L → Nat → Except CentroidsFindError (List L))
    (le : ColorRGB → ColorRGB → Bool) (self : List ColorRGB)
    (target_colors_count : Nat) (h : self.length < target_colors_count) :
    try_reduce toLab fromLab cluster le self target_colors_count =
      Except.error (PaletteError.NotEnoughColors target_colors_count self.length) := by
  unfold try_reduce
  rw [Nat.compare_eq_lt.mpr h]

/-- Witness for C8: reducing the three-color primary palette to four colors
fails with `NotEnoughColors{expected := 4, actual := 3}`. -/
theorem try_reduce_not_enough_colors_witness :
    ([ColorRGB.mk 255 0 0, ColorRGB.mk 0 255 0, ColorRGB.mk 0 0 255].length < 4) ∧
    try_reduce (fun c => c.r) (fun _ => ColorRGB.mk 0 0 0) (fun _ _ => Except.ok [])
      (fun _ _ => true) [ColorRGB.mk 255 0 0, ColorRGB.mk 0 255 0, ColorRGB.mk 0 0 255] 4 =
      Except.error (PaletteError.NotEnoughColors 4 3) :=
  ⟨by decide,
    try_reduce_not_enough_colors (fun c => c.r) (fun _ => ColorRGB.mk 0 0 0)
      (fun _ _ => Except.ok []) (fun _ _ => true)
      [ColorRGB.mk 255 0 0, ColorRGB.mk 0 255 0, ColorRGB.mk 0 0 255] 4 (by decide)⟩

/-! ### Claim C9 -/

/-- C9: for a target strictly between 0 and the palette size, a successful
`try_reduce` returns at most `target` colors, not necessarily exactly
`target`: the centroids returned by the clustering oracle are converted to
8-bit RGB and then deduplicated, so distinct centroids rounding to the same
8-bit color merge.  The second conjunct shows a concrete merge: a clustering
oracle returning the two distinct Lab values `0` and `1`, which both round to
black, reduces a three-color palette to a single entry rather than two. -/
theorem try_reduce_at_most_target {L : Type} (toLab : ColorRGB → L)
    (fromLab : L → ColorRGB)
    (cluster : List L → Nat → Except CentroidsFindError (List L))
    (le : ColorRGB → ColorRGB → Bool) (self : List ColorRGB)
    (target_colors_count : Nat) (hk : 0 < target_colors_count)
    (hkp : target_colors_count < self.length) (labs : List L)
    (hcl : cluster (self.map toLab) target_colors_count = Except.ok labs)
    (hlen : labs.length = target_colors_count) (res : List ColorRGB)
    (hres : try_reduce toLab fromLab cluster le self target_colors_count
      = Except.ok res) :
    res.length ≤ target_colors_count ∧
    try_reduce (fun c => c.r) (fun _ => ColorRGB.mk 0 0 0)
      (fun _ _ => Except.ok [0, 1]) (fun _ _ => true)
      [ColorRGB.mk 1 2 3, ColorRGB.mk 4 5 6, ColorRGB.mk 7 8 9] 2 =
      Except.ok [ColorRGB.mk 0 0 0] := by
  constructor
  · unfold try_reduce at hres
    rw [Nat.compare_eq_gt.mpr hkp, hcl] at hres
    have hr2 : res = sortColors le (paletteFromVec le (labs.map fromLab)) :=
      (Except.ok.inj hres).symm
    rw [hr2]
    unfold sortColors paletteFromVec sortColors
    rw [List.length_insertionSort, List.length_insertionSort]
    calc (labs.map fromLab).dedup.length
        ≤ (labs.map fromLab).length := (List.dedup_sublist _).length_le
      _ = labs.length := List.length_map _ _
      _ = target_colors_count := hlen
  · rfl

/-- Witness for C9: the theorem applied at a concrete palette, target 2, and
a concrete clustering oracle whose two centroids merge after rounding. -/
theorem try_reduce_at_most_target_witness :
    (0 < 2) ∧ (2 < [ColorRGB.mk 1 2 3, ColorRGB.mk 4 5 6, ColorRGB.mk 7 8 9].length) ∧
    (([0, 1] : List Nat).length = 2) ∧
    (([ColorRGB.mk 0 0 0] : List ColorRGB).length ≤ 2 ∧
    try_reduce (fun c => c.r) (fun _ => ColorRGB.mk 0 0 0)
      (fun _ _ => Except.ok [0, 1]) (fun _ _ => true)
      [ColorRGB.mk 1 2 3, ColorRGB.mk 4 5 6, ColorRGB.mk 7 8 9] 2 =
      Except.ok [ColorRGB.mk 0 0 0]) :=
  ⟨by decide, by decide, by decide,
    try_reduce_at_most_target (fun c => c.r) (fun _ => ColorRGB.mk 0 0 0)
      (fun _ _ => Except.ok [0, 1]) (fun _ _ => true)
      [ColorRGB.mk 1 2 3, ColorRGB.mk 4 5 6, ColorRGB.mk 7 8 9] 2
      (by decide) (by decide) [0, 1] rfl rfl [ColorRGB.mk 0 0 0] rfl⟩

/-! ### Claim C10 -/

/-- C10: the nearest-color search on an empty palette panics (`unwrap` of
`None`, modelled by `none`) instead of returning an error value — for the
abstract-distance searches (`find_closest_by_lab` / `find_closest_by_srgb`,
embedded as `find_closest_by`) and the concrete RGB search alike — and
consequently `thresholding_lab` / `thresholding_rgb` applied with an empty
palette to any image with at least one pixel panics as well. -/
theorem empty_palette_search_panics (dist : ColorRGB → ColorRGB → ℚ)
    (src_color : ColorRGB) (pixels : List ColorRGB) (hne : pixels ≠ []) :
    find_closest_by dist [] src_color = none ∧
    find_closest_by_rgb [] src_color = none ∧
    thresholding_lab dist [] pixels = none ∧
    thresholding_rgb [] pixels = none := by
  refine ⟨rfl, rfl, ?_, ?_⟩
  · cases pixels with
    | nil => exact absurd rfl hne
    | cons p ps =>
      unfold thresholding_lab
      rw [List.mapM_cons]
      rfl
  · cases pixels with
    | nil => exact absurd rfl hne
    | cons p ps =>
      unfold thresholding_rgb
      rw [List.mapM_cons]
      rfl

/-- Witness for C10 at a concrete one-pixel image. -/
theorem empty_palette_search_panics_witness :
    ([ColorRGB.mk 9 9 9] ≠ []) ∧
    (find_closest_by (fun _ _ => 0) [] (ColorRGB.mk 1 1 1) = none ∧
    find_closest_by_rgb [] (ColorRGB.mk 1 1 1) = none ∧
    thresholding_lab (fun _ _ => 0) [] [ColorRGB.mk 9 9 9] = none ∧
    thresholding_rgb [] [ColorRGB.mk 9 9 9] = none) :=
  ⟨by decide,
    empty_palette_search_panics (fun _ _ => 0) (ColorRGB.mk 1 1 1)
      [ColorRGB.mk 9 9 9] (by decide)⟩

/-! ### Claim C3 -/

theorem sortColors_nodup_iff (le : ColorRGB → ColorRGB → Bool) (l : List ColorRGB) :
    (sortColors le l).Nodup ↔ l.Nodup :=
  (List.perm_insertionSort _ l).nodup_iff

theorem grayscale_channel_le (steps s : Nat) (h2 : 2 ≤ steps) (hs : s ≤ steps - 1) :
    (255 * s) / (steps - 1) ≤ 255 := by
  have h1 : 0 < steps - 1 := by omega
  have hmul : 255 * s ≤ 255 * (steps - 1) := Nat.mul_le_mul_left _ hs
  calc (255 * s) / (steps - 1) ≤ (255 * (steps - 1)) / (steps - 1) :=
        Nat.div_le_div_right hmul
    _ = 255 := Nat.mul_div_cancel 255 h1

theorem grayscale_channel_strict (steps s : Nat) (h2 : 2 ≤ steps) (h256 : steps ≤ 256)
    (hs : s + 1 ≤ steps - 1) :
    (255 * s) / (steps - 1) < (255 * (s + 1)) / (steps - 1) := by
  have key : (255 * s + (steps - 1)) / (steps - 1) ≤ (255 * (s + 1)) / (steps - 1) := by
    apply Nat.div_le_div_right
    have h255 : 255 * (s + 1) = 255 * s + 255 := by ring
    omega
  have hstep : (255 * s + (steps - 1)) / (steps - 1) = (255 * s) / (steps - 1) + 1 :=
    Nat.add_div_right _ (by omega)
  omega

theorem grayscale_channel_mono (steps : Nat) (h2 : 2 ≤ steps) (h256 : steps ≤ 256) :
    ∀ s2 s1, s1 < s2 → s2 ≤ steps - 1 →
      (255 * s1) / (steps - 1) < (255 * s2) / (steps - 1) := by
  intro s2
  induction s2 with
  | zero =>
    intro s1 h
    omega
  | succ n ih =>
    intro s1 h hle
    rcases Nat.lt_succ_iff_lt_or_eq.mp h with h | h
    · exact lt_trans (ih s1 h (by omega)) (grayscale_channel_strict steps n h2 h256 hle)
    · rw [h]
      exact grayscale_channel_strict steps n h2 h256 hle

theorem grayscale_nodup (steps : Nat) (h2 : 2 ≤ steps) (h256 : steps ≤ 256) :
    ∀ g, PaletteRGB.grayscale steps = some g → g.Nodup := by
  intro g hg
  unfold PaletteRGB.grayscale at hg
  rw [if_neg (by omega)] at hg
  rw [← Option.some.inj hg]
  apply List.Nodup.map_on ?_ (List.nodup_range steps)
  intro x hx y hy hxy
  rw [List.mem_range] at hx hy
  have hcast : ∀ s, s ≤ steps - 1 →
      u8cast ((255 * s) / (steps - 1)) = (255 * s) / (steps - 1) := by
    intro s hs
    unfold u8cast
    exact Nat.mod_eq_of_lt (by have := grayscale_channel_le steps s h2 hs; omega)
  have hchan : u8cast ((255 * x) / (steps - 1)) = u8cast ((255 * y) / (steps - 1)) :=
    congrArg ColorRGB.r hxy
  rw [hcast x (by omega), hcast y (by omega)] at hchan
  by_contra hne
  rcases Nat.lt_or_ge x y with hlt | hge
  · have := grayscale_channel_mono steps h2 h256 y x hlt (by omega)
    omega
  · have hlt : y < x := by omega
    have := grayscale_channel_mono steps h2 h256 x y hlt (by omega)
    omega

theorem try_reduce_ok_nodup {L : Type} (toLab : ColorRGB → L) (fromLab : L → ColorRGB)
    (cluster : List L → Nat → Except CentroidsFindError (List L))
    (le : ColorRGB → ColorRGB → Bool) (p : List ColorRGB) (k : Nat)
    (res : List ColorRGB) (hp : p.Nodup)
    (hres : try_reduce toLab fromLab cluster le p k = Except.ok res) : res.Nodup := by
  unfold try_reduce at hres
  cases hcmp : compare p.length k with
  | lt =>
    rw [hcmp] at hres
    exact absurd hres (by simp)
  | eq =>
    rw [hcmp] at hres
    rw [← Except.ok.inj hres]
    exact hp
  | gt =>
    rw [hcmp] at hres
    cases hcl : cluster (p.map toLab) k with
    | error e =>
      rw [hcl] at hres
      exact absurd hres (by simp)
    | ok labs =>
      rw [hcl] at hres
      rw [← Except.ok.inj hres, sortColors_nodup_iff]
      unfold paletteFromVec
      rw [sortColors_nodup_iff]
      exact List.nodup_dedup _

set_option maxRecDepth 8192 in
/-- Counterexample for C3: `grayscale(257)` is accepted by the constructor
(steps ≥ 2) yet the produced palette contains the color black twice — steps
0 and 1 both map to channel value `(255 * step) / 256 = 0` — so it is not
duplicate-free. -/
theorem palette_duplicate_free_counterexample :
    PaletteRGB.grayscale 257 ≠ none ∧
    ¬ ((PaletteRGB.grayscale 257).getD []).Nodup := by
  constructor
  · decide
  · decide

/-- C3 amended: duplicate-freeness holds for `From<Vec>` (`paletteFromVec`),
`from_rgbu8_image` and a successful `try_reduce` on a duplicate-free palette,
and for `grayscale(steps)` only when `2 ≤ steps ≤ 256` (for `steps ≥ 257`
distinct steps collapse to the same 8-bit channel value and duplicates
remain, as the counterexample shows); `combine` removes only adjacent
duplicates before sorting, so its result is duplicate-free exactly when the
concatenation of the two palettes has no duplicates left after collapsing
adjacent runs.  Entries are an ordered permutation under the (abstract)
lightness comparison in every case, by construction of the final sort. -/
theorem palette_duplicate_free_amended (le : ColorRGB → ColorRGB → Bool)
    (value : List ColorRGB) (img : List (List ColorRGB)) (steps : Nat)
    (h2 : 2 ≤ steps) (h256 : steps ≤ 256) (self other : List ColorRGB)
    {L : Type} (toLab : ColorRGB → L) (fromLab : L → ColorRGB)
    (cluster : List L → Nat → Except CentroidsFindError (List L))
    (p : List ColorRGB) (k : Nat) (res : List ColorRGB) (hp : p.Nodup)
    (hres : try_reduce toLab fromLab cluster le p k = Except.ok res) :
    (paletteFromVec le value).Nodup ∧
    (from_rgbu8_image le img).Nodup ∧
    (∀ g, PaletteRGB.grayscale steps = some g → g.Nodup) ∧
    res.Nodup ∧
    ((PaletteRGB.combine le self other).Nodup ↔
      (dedupAdjacent (self ++ other)).Nodup) := by
  refine ⟨?_, ?_, grayscale_nodup steps h2 h256, ?_, ?_⟩
  · unfold paletteFromVec
    rw [sortColors_nodup_iff]
    exact List.nodup_dedup _
  · unfold from_rgbu8_image paletteFromVec
    rw [sortColors_nodup_iff]
    exact List.nodup_dedup _
  · exact try_reduce_ok_nodup toLab fromLab cluster le p k res hp hres
  · unfold PaletteRGB.combine
    exact sortColors_nodup_iff le _

/-- Witness for C3 (amended) at concrete palettes: a vector with a repeated
color, a 2x1 image, `grayscale(4)`, a trivial reduction, and a combine whose
concatenation has non-adjacent duplicates. -/
theorem palette_duplicate_free_amended_witness :
    (2 ≤ 4) ∧ (4 ≤ 256) ∧ ([ColorRGB.mk 0 0 0] : List ColorRGB).Nodup ∧
    try_reduce (fun c => c.r) (fun _ => ColorRGB.mk 0 0 0) (fun _ _ => Except.ok [])
      (fun _ _ => true) [ColorRGB.mk 0 0 0] 1 = Except.ok [ColorRGB.mk 0 0 0] ∧
    ((paletteFromVec (fun _ _ => true)
        [ColorRGB.mk 3 3 3, ColorRGB.mk 3 3 3, ColorRGB.mk 5 5 5]).Nodup ∧
    (from_rgbu8_image (fun _ _ => true) [[ColorRGB.mk 1 1 1], [ColorRGB.mk 2 2 2]]).Nodup ∧
    (∀ g, PaletteRGB.grayscale 4 = some g → g.Nodup) ∧
    ([ColorRGB.mk 0 0 0] : List ColorRGB).Nodup ∧
    ((PaletteRGB.combine (fun _ _ => true)
        [ColorRGB.mk 0 0 0, ColorRGB.mk 9 9 9] [ColorRGB.mk 0 0 0]).Nodup ↔
      (dedupAdjacent ([ColorRGB.mk 0 0 0, ColorRGB.mk 9 9 9] ++
        [ColorRGB.mk 0 0 0])).Nodup)) :=
  ⟨by decide, by decide, by decide, rfl,
    palette_duplicate_free_amended (fun _ _ => true)
      [ColorRGB.mk 3 3 3, ColorRGB.mk 3 3 3, ColorRGB.mk 5 5 5]
      [[ColorRGB.mk 1 1 1], [ColorRGB.mk 2 2 2]] 4 (by decide) (by decide)
      [ColorRGB.mk 0 0 0, ColorRGB.mk 9 9 9] [ColorRGB.mk 0 0 0]
      (fun c => c.r) (fun _ => ColorRGB.mk 0 0 0) (fun _ _ => Except.ok [])
      [ColorRGB.mk 0 0 0] 1 [ColorRGB.mk 0 0 0] (by decide) rfl⟩

/-! ### Claim C7 -/

theorem get2d_set2d_ne {T : Type} (m : List (List T)) (y x : Nat) (v : T) (j i : Nat)
    (hne : ¬ (j = y ∧ i = x)) : get2d (set2d m y x v) j i = get2d m j i := by
  unfold get2d set2d
  by_cases hj : j = y
  · subst hj
    have hi : i ≠ x := fun hx => hne ⟨rfl, hx⟩
    by_cases hlen : j < m.length
    · rw [List.getElem?_set_self hlen, List.getElem?_eq_getElem hlen]
      show ((m.getD j []).set x v)[i]? = (m[j])[i]?
      rw [List.getElem?_set_ne (Ne.symm hi)]
      rw [List.getD_eq_getElem?_getD, List.getElem?_eq_getElem hlen]
      rfl
    · rw [List.set_eq_of_length_le (by omega)]
  · rw [List.getElem?_set_ne (fun q => hj q.symm)]

theorem ifset_frame {T : Type} (c : Prop) [Decidable c] (m : List (List T))
    (y0 x0 : Nat) (v : T) (i j : Nat) (hout : ¬ (j = y0 ∧ i = x0 ∧ c)) :
    get2d (if c then set2d m y0 x0 v else m) j i = get2d m j i := by
  by_cases hc : c
  · rw [if_pos hc]
    exact get2d_set2d_ne m y0 x0 v j i (fun q => hout ⟨q.1, q.2, hc⟩)
  · rw [if_neg hc]

theorem apply_to_matrix_frame {T : Type} (k : Kernel2x2 T) (x y w h : Nat)
    (m : List (List T)) (i j : Nat) (hout : ¬ ditherWriteSlot w h x y i j) :
    get2d (k.apply_to_matrix (x, y) (w, h) m) j i = get2d m j i := by
  unfold ditherWriteSlot at hout
  refine Eq.trans (ifset_frame _ _ _ _ _ _ _ ?_)
    (Eq.trans (ifset_frame _ _ _ _ _ _ _ ?_)
      (Eq.trans (ifset_frame _ _ _ _ _ _ _ ?_)
        (ifset_frame _ _ _ _ _ _ _ ?_)))
  · intro ⟨hj, hi, hw, hh⟩
    exact hout ⟨Or.inr (Or.inr (Or.inr ⟨hi, hj⟩)), by omega, by omega⟩
  · intro ⟨hj, hi, hw, hh⟩
    exact hout ⟨Or.inr (Or.inr (Or.inl ⟨hi, hj⟩)), by omega, by omega⟩
  · intro ⟨hj, hi, hw, hh⟩
    exact hout ⟨Or.inr (Or.inl ⟨hi, hj⟩), by omega, by omega⟩
  · intro ⟨hj, hi, hw, hh⟩
    exact hout ⟨Or.inl ⟨hi, hj⟩, by omega, by omega⟩

theorem kernelStep_frame {T : Type} (w h x y : Nat) (processing : Kernel2x2 T → Kernel2x2 T)
    (s s2 : KernelScratch T) (i j : Nat)
    (hstep : kernelStep w h processing x y s = some s2)
    (hout : ¬ kernelWriteSlot w h x y i j) :
    get2d s2.matrix j i = get2d s.matrix j i := by
  unfold kernelWriteSlot at hout
  unfold kernelStep at hstep
  cases h1 : get2d s.matrix y x with
  | none =>
    rw [h1] at hstep
    exact absurd hstep (by simp)
  | some tl =>
  cases h2 : (if x + 1 < w then get2d s.matrix y (x + 1) else some s.dummy_tr) with
  | none =>
    rw [h1, h2] at hstep
    exact absurd hstep (by simp)
  | some tr =>
  cases h3 : (if y + 1 < h then get2d s.matrix (y + 1) x else some s.dummy_bl) with
  | none =>
    rw [h1, h2, h3] at hstep
    exact absurd hstep (by simp)
  | some bl =>
  cases h4 : (if x + 1 < w ∧ y + 1 < h then get2d s.matrix (y + 1) (x + 1)
      else some s.dummy_br) with
  | none =>
    rw [h1, h2, h3, h4] at hstep
    exact absurd hstep (by simp)
  | some br =>
    rw [h1, h2, h3, h4] at hstep
    have hs2 := Option.some.inj hstep
    rw [← hs2]
    show get2d
      ((fun m => if x + 1 < w ∧ y + 1 < h then
          set2d m (y + 1) (x + 1) (processing (Kernel2x2.mk tl tr bl br)).br else m)
        ((fun m => if y + 1 < h then
          set2d m (y + 1) x (processing (Kernel2x2.mk tl tr bl br)).bl else m)
        ((fun m => if x + 1 < w then
          set2d m y (x + 1) (processing (Kernel2x2.mk tl tr bl br)).tr else m)
        (set2d s.matrix y x (processing (Kernel2x2.mk tl tr bl br)).tl)))) j i
      = get2d s.matrix j i
    refine Eq.trans (ifset_frame _ _ _ _ _ _ _ ?_)
      (Eq.trans (ifset_frame _ _ _ _ _ _ _ ?_)
        (Eq.trans (ifset_frame _ _ _ _ _ _ _ ?_)
          (get2d_set2d_ne _ _ _ _ _ _ ?_)))
    · intro ⟨hj, hi, hw, hh⟩
      exact hout (Or.inr (Or.inr (Or.inr ⟨hi, hj, hw, hh⟩)))
    · intro ⟨hj, hi, hh⟩
      exact hout (Or.inr (Or.inr (Or.inl ⟨hi, hj, hh⟩)))
    · intro ⟨hj, hi, hw⟩
      exact hout (Or.inr (Or.inl ⟨hi, hj, hw⟩))
    · intro ⟨hj, hi⟩
      exact hout (Or.inl ⟨hi, hj⟩)

/-- C7: edge-write policy of the 2x2 traversals.  At any traversal step whose
window extends past the last column or row, writes to the out-of-range
top-right / bottom-left / bottom-right slots are discarded (they go to the
scratch cells in `kernel.rs`, or are omitted by `set_omitting` in
`dithering.rs`) and are never redirected to another grid cell: a step
modifies no grid cell outside the in-range slots of its current window. -/
theorem edge_write_policy {T : Type} (w h x y i j : Nat)
    (processing : Kernel2x2 T → Kernel2x2 T) (s s2 : KernelScratch T)
    (hstep : kernelStep w h processing x y s = some s2)
    (hout1 : ¬ kernelWriteSlot w h x y i j)
    (k : Kernel2x2 T) (m : List (List T)) (i2 j2 : Nat)
    (hout2 : ¬ ditherWriteSlot w h x y i2 j2) :
    get2d s2.matrix j i = get2d s.matrix j i ∧
    get2d (k.apply_to_matrix (x, y) (w, h) m) j2 i2 = get2d m j2 i2 :=
  ⟨kernelStep_frame w h x y processing s s2 i j hstep hout1,
    apply_to_matrix_frame k x y w h m i2 j2 hout2⟩

/-- Witness for C7: a step at window position (1,1) of a 2x2 grid (so all
three neighbor slots are out of range); the top-left cell is modified, cell
(0,0) is untouched, and the out-of-range writes land in the scratch cells. -/
theorem edge_write_policy_witness :
    (kernelStep 2 2 (fun k => Kernel2x2.mk (k.tl + 1) (k.tr + 1) (k.bl + 1) (k.br + 1))
      1 1 (KernelScratch.mk [[5, 6], [7, 8]] 0 0 0)
      = some (KernelScratch.mk [[5, 6], [7, 9]] 1 1 1)) ∧
    (¬ kernelWriteSlot 2 2 1 1 0 0) ∧ (¬ ditherWriteSlot 2 2 1 1 0 0) ∧
    (get2d (KernelScratch.mk [[5, 6], [7, 9]] 1 1 1).matrix 0 0
        = get2d (KernelScratch.mk [[5, 6], [7, 8]] 0 0 0).matrix 0 0 ∧
      get2d ((Kernel2x2.mk 1 2 3 4).apply_to_matrix (1, 1) (2, 2) [[5, 6], [7, 8]]) 0 0
        = get2d [[5, 6], [7, 8]] 0 0) :=
  ⟨by unfold kernelStep; norm_num [get2d, set2d],
    by unfold kernelWriteSlot; omega, by unfold ditherWriteSlot; omega,
    edge_write_policy 2 2 1 1 0 0
      (fun k => Kernel2x2.mk (k.tl + 1) (k.tr + 1) (k.bl + 1) (k.br + 1))
      (KernelScratch.mk [[5, 6], [7, 8]] 0 0 0)
      (KernelScratch.mk [[5, 6], [7, 9]] 1 1 1)
      (by unfold kernelStep; norm_num [get2d, set2d])
      (by unfold kernelWriteSlot; omega)
      (Kernel2x2.mk 1 2 3 4) [[5, 6], [7, 8]] 0 0
      (by unfold ditherWriteSlot; omega)⟩

/-! ### Claim C6 -/

theorem get2d_isSome_of_rect {T : Type} (m : List (List T)) (w : Nat) (y x : Nat)
    (hrect : ∀ row ∈ m, row.length = w) (hy : y < m.length) (hx : x < w) :
    ∃ v, get2d m y x = some v := by
  unfold get2d
  rw [List.getElem?_eq_getElem hy]
  have hrow : m[y].length = w := hrect _ (List.getElem_mem hy)
  have hx2 : x < m[y].length := by omega
  refine ⟨m[y].get ⟨x, hx2⟩, ?_⟩
  show m[y][x]? = _
  rw [List.getElem?_eq_getElem hx2]
  rfl

theorem from_matrix_isSome {T : Type} (x y w h : Nat) (m : List (List T))
    (hh : m.length = h) (hrect : ∀ row ∈ m, row.length = w)
    (h1 : 1 ≤ h) (w1 : 1 ≤ w) :
    ∃ k, Kernel2x2.from_matrix (x, y) (w, h) m = some k := by
  unfold Kernel2x2.from_matrix
  obtain ⟨v1, hv1⟩ := get2d_isSome_of_rect m w (if y < h then y else h - 1)
    (if x < w then x else w - 1) hrect (by rw [hh]; split <;> omega) (by split <;> omega)
  obtain ⟨v2, hv2⟩ := get2d_isSome_of_rect m w (if y < h then y else h - 1)
    (if x + 1 < w then x + 1 else w - 1) hrect (by rw [hh]; split <;> omega)
    (by split <;> omega)
  obtain ⟨v3, hv3⟩ := get2d_isSome_of_rect m w (if y + 1 < h then y + 1 else h - 1)
    (if x < w then x else w - 1) hrect (by rw [hh]; split <;> omega) (by split <;> omega)
  obtain ⟨v4, hv4⟩ := get2d_isSome_of_rect m w (if y + 1 < h then y + 1 else h - 1)
    (if x + 1 < w then x + 1 else w - 1) hrect (by rw [hh]; split <;> omega)
    (by split <;> omega)
  refine ⟨Kernel2x2.mk v1 v2 v3 v4, ?_⟩
  show (match get2d m (if y < h then y else h - 1) (if x < w then x else w - 1),
      get2d m (if y < h then y else h - 1) (if x + 1 < w then x + 1 else w - 1),
      get2d m (if y + 1 < h then y + 1 else h - 1) (if x < w then x else w - 1),
      get2d m (if y + 1 < h then y + 1 else h - 1)
        (if x + 1 < w then x + 1 else w - 1) with
    | some tl, some tr, some bl, some br => some (Kernel2x2.mk tl tr bl br)
    | _, _, _, _ => none) = some (Kernel2x2.mk v1 v2 v3 v4)
  rw [hv1, hv2, hv3, hv4]

theorem ifset_rect {T : Type} (c : Prop) [Decidable c] (m : List (List T))
    (y0 x0 : Nat) (v : T) (w h : Nat) (hc : c → y0 < h) (hh : m.length = h)
    (hrect : ∀ row ∈ m, row.length = w) :
    (if c then set2d m y0 x0 v else m).length = h ∧
    (∀ row ∈ (if c then set2d m y0 x0 v else m), row.length = w) := by
  by_cases hcc : c
  · rw [if_pos hcc]
    constructor
    · unfold set2d
      rw [List.length_set]
      exact hh
    · intro row hrow
      rcases List.mem_or_eq_of_mem_set hrow with hmem | heq
      · exact hrect _ hmem
      · rw [heq, List.length_set]
        have hy : y0 < m.length := by
          rw [hh]
          exact hc hcc
        rw [List.getD_eq_getElem?_getD, List.getElem?_eq_getElem hy]
        exact hrect _ (List.getElem_mem hy)
  · rw [if_neg hcc]
    exact ⟨hh, hrect⟩

theorem apply_to_matrix_rect {T : Type} (k : Kernel2x2 T) (x y w h : Nat)
    (m : List (List T)) (hh : m.length = h) (hrect : ∀ row ∈ m, row.length = w) :
    (k.apply_to_matrix (x, y) (w, h) m).length = h ∧
    (∀ row ∈ k.apply_to_matrix (x, y) (w, h) m, row.length = w) := by
  have s1 := ifset_rect (x < w ∧ y < h) m y x k.tl w h (fun q => q.2) hh hrect
  have s2 := ifset_rect (x + 1 < w ∧ y < h) _ y (x + 1) k.tr w h (fun q => q.2) s1.1 s1.2
  have s3 := ifset_rect (x < w ∧ y + 1 < h) _ (y + 1) x k.bl w h (fun q => q.2) s2.1 s2.2
  exact ifset_rect (x + 1 < w ∧ y + 1 < h) _ (y + 1) (x + 1) k.br w h
    (fun q => q.2) s3.1 s3.2

theorem ditherTraverse_isSome {T : Type} (f : Kernel2x2 T → Kernel2x2 T) (w h : Nat)
    (w1 : 1 ≤ w) (h1 : 1 ≤ h) :
    ∀ (ps : List (Nat × Nat)) (m : List (List T)), m.length = h →
      (∀ row ∈ m, row.length = w) →
      ∃ m2, ps.foldlM (fun acc pos =>
          (Kernel2x2.from_matrix pos (w, h) acc).map
            (fun kernel => (f kernel).apply_to_matrix pos (w, h) acc)) m = some m2 ∧
        m2.length = h ∧ ∀ row ∈ m2, row.length = w := by
  intro ps
  induction ps with
  | nil =>
    intro m hh hrect
    exact ⟨m, rfl, hh, hrect⟩
  | cons p ps ih =>
    intro m hh hrect
    obtain ⟨px, py⟩ := p
    obtain ⟨k, hk⟩ := from_matrix_isSome px py w h m hh hrect h1 w1
    have hr := apply_to_matrix_rect (f k) px py w h m hh hrect
    obtain ⟨m2, hm2, hlen2, hrect2⟩ := ih _ hr.1 hr.2
    refine ⟨m2, ?_, hlen2, hrect2⟩
    rw [List.foldlM_cons, hk]
    simpa using hm2

set_option maxRecDepth 2048 in
/-- Counterexample for C6: the 2x2 kernel traversal that the error-diffusion
entry points actually use (`dithering_floyd_steinberg_lab` / `_rgb`, via
`Kernel2x2::from_matrix` / `apply_to_matrix`) does not fail on a 1×5 or 5×1
grid: it clamps out-of-range reads to the border, omits out-of-range writes,
and completes normally — here it processes all five cells of both grids with
a kernel function that increments the top-left cell, returning a result
rather than an invalid-input error. -/
theorem kernel_min_size_counterexample :
    ditherTraverse (fun k => Kernel2x2.mk (k.tl + 1) k.tr k.bl k.br) 5 1
      [[0, 0, 0, 0, 0]] = some [[1, 1, 1, 1, 1]] ∧
    ditherTraverse (fun k => Kernel2x2.mk (k.tl + 1) k.tr k.bl k.br) 1 5
      [[0], [0], [0], [0], [0]] = some [[1], [1], [1], [1], [1]] := by
  constructor
  · rfl
  · rfl

/-- C6 amended: the standalone 2x2 traversal of `kernel.rs`
(`apply_2x2_kernel_processing`) does reject a grid with width < 2 or
height < 2 up front (its `assert!`s fail rather than silently processing
nothing), but the clamped `Kernel2x2` traversal that the error-diffusion
functions actually use imposes no 2×2 minimum: on every well-formed grid
with width ≥ 1 and height ≥ 1 — including 1×5 and 5×1 — it completes
normally. -/
theorem kernel_min_size_amended {T : Type} (matrix : List (List T))
    (processing : Kernel2x2 T → Kernel2x2 T) (dflt : T)
    (hbad : matrix.length ≤ 1 ∨ (matrix.headD []).length ≤ 1)
    (f : Kernel2x2 T → Kernel2x2 T) (w h : Nat) (m : List (List T))
    (hh : m.length = h) (hrect : ∀ row ∈ m, row.length = w)
    (h1 : 1 ≤ h) (w1 : 1 ≤ w) :
    apply_2x2_kernel_processing matrix processing dflt = none ∧
    ∃ m2, ditherTraverse f w h m = some m2 := by
  constructor
  · unfold apply_2x2_kernel_processing
    rcases hbad with hbad | hbad
    · rw [if_pos hbad]
    · by_cases h0 : matrix.length ≤ 1
      · rw [if_pos h0]
      · rw [if_neg h0, if_pos hbad]
  · obtain ⟨m2, hm2, _, _⟩ :=
      ditherTraverse_isSome f w h w1 h1 (rowMajorPositions w h) m hh hrect
    exact ⟨m2, hm2⟩

/-- Witness for C6 (amended): the `kernel.rs` traversal rejects a 1×5 grid,
while the dithering traversal succeeds on the same 1×5 grid. -/
theorem kernel_min_size_amended_witness :
    (([[0, 0, 0, 0, 0]] : List (List Nat)).length ≤ 1 ∨
      (([[0, 0, 0, 0, 0]] : List (List Nat)).headD []).length ≤ 1) ∧
    (([[0, 0, 0, 0, 0]] : List (List Nat)).length = 1) ∧
    (∀ row ∈ ([[0, 0, 0, 0, 0]] : List (List Nat)), row.length = 5) ∧
    (apply_2x2_kernel_processing ([[0, 0, 0, 0, 0]] : List (List Nat))
        (fun k => Kernel2x2.mk (k.tl + 1) k.tr k.bl k.br) 0 = none ∧
      ∃ m2, ditherTraverse (fun k => Kernel2x2.mk (k.tl + 1) k.tr k.bl k.br) 5 1
        [[0, 0, 0, 0, 0]] = some m2) :=
  ⟨Or.inl (by decide), by decide, by decide,
    kernel_min_size_amended [[0, 0, 0, 0, 0]]
      (fun k => Kernel2x2.mk (k.tl + 1) k.tr k.bl k.br) 0 (Or.inl (by decide))
      (fun k => Kernel2x2.mk (k.tl + 1) k.tr k.bl k.br) 5 1 [[0, 0, 0, 0, 0]]
      (by decide) (by decide) (by decide) (by decide)⟩
